import Mathlib

/-
Shallow embedding of the MCP server core (src/app.py): in-memory document /
context store, task queue with failure list, sliding-window rate limiter and
the asynchronous task processor, together with proofs about the behaviour of
each operation.
-/

namespace MCP

/-- Mirrors the pydantic `Document` model (app.py lines 24-28): id, content,
metadata mapping and creation timestamp.  Metadata values are modelled as
strings; the store never inspects them. -/
structure Document where
  id : String
  content : String
  metadata : List (String × String)
  created_at : String
deriving DecidableEq

/-- Mirrors the pydantic `Context` model (app.py lines 30-36). -/
structure Context where
  id : String
  name : String
  documents : List String
  description : Option String
  created_at : String
  updated_at : String
deriving DecidableEq

/-- A queued task is a dict in the source; the fields below cover every key
the program reads or writes (`type`, `data`, `context_id`, `error`).  The
`data` payload holds the optional fields of both entity models, matching a
Python dict passed to `Document(**data)` / `Context(**data)`. -/
structure TaskPayload where
  id : Option String
  content : Option String
  name : Option String
  documents : Option (List String)
  description : Option String
  metadata : Option (List (String × String))
  created_at : Option String
  updated_at : Option String
deriving DecidableEq

/-- A task queue entry (a Python dict with keys type / data / context_id /
error, any of which may be absent). -/
structure Task where
  type : Option String
  context_id : Option String
  data : Option TaskPayload
  error : Option String
deriving DecidableEq

/-- The module-level mutable state of app.py: `documents_db`, `contexts_db`
(insertion-ordered dicts, modelled as association lists with unique keys) and
the `TaskQueue` with its `tasks` and `failed_tasks` lists. -/
structure ServerState where
  documents_db : List (String × Document)
  contexts_db : List (String × Context)
  tasks : List Task
  failed_tasks : List Task
deriving DecidableEq

/-- Dict lookup: `db[k]` / `k in db` on a Python dict, as first-match lookup
on the association list. -/
def lookupD {α : Type} (db : List (String × α)) (k : String) : Option α :=
  (db.find? (fun p => p.1 == k)).map (fun p => p.2)

/-- Dict assignment `db[k] = v`: replace the entry for `k` in place if the
key is present, otherwise append at the end (Python dict insertion order). -/
def dictInsert {α : Type} (db : List (String × α)) (k : String) (v : α) :
    List (String × α) :=
  match db with
  | [] => [(k, v)]
  | (k', v') :: rest =>
    if k' == k then (k, v) :: rest else (k', v') :: dictInsert rest k v

/-- Dict deletion `del db[k]`. -/
def dictDelete {α : Type} (db : List (String × α)) (k : String) :
    List (String × α) :=
  db.filter (fun p => !(p.1 == k))

/-- `RateLimiter` (app.py lines 42-58): capacity and the list of recorded
request instants.  Instants are integers; only differences are compared. -/
structure RateLimiter where
  requests_per_minute : Nat
  request_times : List Int
deriving DecidableEq

/-- `RateLimiter.is_rate_limited` at wall-clock time `now`: drop instants at
least 60s old, reject (returning `true`) when the pruned window has reached
capacity, otherwise record `now` and admit (returning `false`). -/
def is_rate_limited (rl : RateLimiter) (now : Int) : Bool × RateLimiter :=
  let pruned := rl.request_times.filter (fun t => decide (now - t < 60))
  if rl.requests_per_minute ≤ pruned.length then
    (true, { rl with request_times := pruned })
  else
    (false, { rl with request_times := pruned ++ [now] })

/-- Results of a sequence of admission checks at the given instants. -/
def run_results (rl : RateLimiter) (ts : List Int) : List Bool :=
  match ts with
  | [] => []
  | t :: rest => (is_rate_limited rl t).1 :: run_results (is_rate_limited rl t).2 rest

/-- Limiter state after a sequence of admission checks. -/
def run_state (rl : RateLimiter) (ts : List Int) : RateLimiter :=
  ts.foldl (fun r t => (is_rate_limited r t).2) rl

/-- `Document(**data)` (pydantic construction): fails when the required
`content` field is absent; `id`, `metadata` and `created_at` fall back to
their defaults (`fresh_id` stands for the generated uuid, `fresh_time` for
`datetime.now().isoformat()`). -/
def mkDocument (fresh_id fresh_time : String) (p : TaskPayload) : Option Document :=
  match p.content with
  | none => none
  | some c =>
    some { id := p.id.getD fresh_id, content := c,
           metadata := p.metadata.getD [], created_at := p.created_at.getD fresh_time }

/-- `Context(**data)`: fails when the required `name` field is absent;
defaulted fields as in `mkDocument`. -/
def mkContext (fresh_id fresh_time : String) (p : TaskPayload) : Option Context :=
  match p.name with
  | none => none
  | some n =>
    some { id := p.id.getD fresh_id, name := n,
           documents := p.documents.getD [], description := p.description,
           created_at := p.created_at.getD fresh_time,
           updated_at := p.updated_at.getD fresh_time }

/-- True exactly when dispatching the task raises a Python exception: a
`create_document` / `create_context` task whose `data` is absent or lacks the
required field.  An unrecognized `type` raises nothing (no branch matches). -/
def taskFails (t : Task) : Bool :=
  if t.type == some "create_document" then
    match t.data with
    | none => true
    | some p => p.content.isNone
  else if t.type == some "create_context" then
    match t.data with
    | none => true
    | some p => p.name.isNone
  else false

/-- The body of the `try`/`except` in `process_task_queue` (app.py lines
95-109), applied to a popped task: dispatch on `type`, commit the entity on
success, and on an exception annotate the task with the error text and append
it to `failed_tasks`.  A task whose `type` matches neither branch leaves the
state untouched (the `try` body simply falls through). -/
def applyIntent (fresh_id fresh_time : String) (task : Task) (s : ServerState) :
    ServerState :=
  if task.type == some "create_document" then
    match task.data with
    | none =>
      { s with failed_tasks := s.failed_tasks ++
          [{ task with error := some "argument after ** must be a mapping" }] }
    | some p =>
      match mkDocument fresh_id fresh_time p with
      | none =>
        { s with failed_tasks := s.failed_tasks ++
            [{ task with error := some "validation error for Document: content field required" }] }
      | some doc => { s with documents_db := dictInsert s.documents_db doc.id doc }
  else if task.type == some "create_context" then
    match task.data with
    | none =>
      { s with failed_tasks := s.failed_tasks ++
          [{ task with error := some "argument after ** must be a mapping" }] }
    | some p =>
      match mkContext fresh_id fresh_time p with
      | none =>
        { s with failed_tasks := s.failed_tasks ++
            [{ task with error := some "validation error for Context: name field required" }] }
      | some ctx => { s with contexts_db := dictInsert s.contexts_db ctx.id ctx }
  else s

/-- One apply step of the processor loop (after the rate limiter admitted):
pop the head of `tasks` and dispatch it; an empty queue is a no-op. -/
def processStep (fresh_id fresh_time : String) (s : ServerState) : ServerState :=
  match s.tasks with
  | [] => s
  | task :: rest => applyIntent fresh_id fresh_time task { s with tasks := rest }

/-- The per-context fix-up of `delete_document` (app.py lines 135-138): when
the context references `document_id`, `list.remove` drops the FIRST
occurrence and `updated_at` is refreshed; otherwise the context is kept
as-is. -/
def cascadeFix (document_id now : String) (p : String × Context) :
    String × Context :=
  if p.2.documents.contains document_id then
    (p.1, { p.2 with documents := p.2.documents.erase document_id, updated_at := now })
  else p

/-- `DELETE /documents/id` (app.py lines 129-141): 404 when absent, else
fix up every context and delete the document. -/
def delete_document (s : ServerState) (document_id now : String) :
    Except Unit Unit × ServerState :=
  if (lookupD s.documents_db document_id).isSome then
    (Except.ok (),
     { s with contexts_db := s.contexts_db.map (cascadeFix document_id now),
              documents_db := dictDelete s.documents_db document_id })
  else (Except.error (), s)

/-- One run of the validation loop of `update_context` (app.py lines
161-169), modelled with Python's for-statement semantics: an index walks the
(mutating) list; when `docs[i]` does not resolve, a failure record is
emitted and `list.remove` deletes the first occurrence of that id, shifting
later elements under the index.  `fuel` only bounds the recursion so that it
is structural: the index rises by one per iteration and the list never
grows, so `docs.length` iterations always suffice and the guard
`i < docs.length` alone decides termination, exactly as in the source. -/
def validateDocsAux (docKeys : List String) (cid : String) :
    Nat → List String → Nat → List Task → List String × List Task
  | 0, docs, _, fails => (docs, fails)
  | fuel + 1, docs, i, fails =>
    if h : i < docs.length then
      if docKeys.contains (docs.get ⟨i, h⟩) then
        validateDocsAux docKeys cid fuel docs (i + 1) fails
      else
        validateDocsAux docKeys cid fuel (docs.erase (docs.get ⟨i, h⟩)) (i + 1)
          (fails ++ [{ type := some "update_context", context_id := some cid,
                       data := none,
                       error := some ("Document " ++ docs.get ⟨i, h⟩ ++ " does not exist") }])
    else (docs, fails)

/-- The validation loop of `update_context`, started at index 0 with no
failures yet. -/
def validateDocs (docKeys : List String) (cid : String) (docs : List String) :
    List String × List Task :=
  validateDocsAux docKeys cid docs.length docs 0 []

/-- `PUT /contexts/id` (app.py lines 155-173): 404 when the key is absent;
otherwise run the validation loop over the submitted documents, refresh
`updated_at`, and commit the record under the path key `context_id`. -/
def update_context (s : ServerState) (context_id : String) (payload : Context)
    (now : String) : Except Unit Context × ServerState :=
  if (lookupD s.contexts_db context_id).isSome then
    let v := validateDocs (s.documents_db.map (fun p => p.1)) context_id
               payload.documents
    let committed : Context := { payload with documents := v.1, updated_at := now }
    (Except.ok committed,
     { s with contexts_db := dictInsert s.contexts_db context_id committed,
              failed_tasks := s.failed_tasks ++ v.2 })
  else (Except.error (), s)

/-- `DELETE /contexts/id` (app.py lines 175-181): 404 when absent, else
delete the entry; nothing else is touched. -/
def delete_context (s : ServerState) (context_id : String) :
    Except Unit Unit × ServerState :=
  if (lookupD s.contexts_db context_id).isSome then
    (Except.ok (), { s with contexts_db := dictDelete s.contexts_db context_id })
  else (Except.error (), s)

/-- One rendered entry of the context-content join. -/
structure ContentEntry where
  id : String
  content : String
  metadata : List (String × String)
deriving DecidableEq

/-- The response of `GET /contexts/id/content`. -/
structure ContextContent where
  context_id : String
  name : String
  documents : List ContentEntry
deriving DecidableEq

/-- `GET /contexts/id/content` (app.py lines 183-199): 404 when the context
is absent; otherwise join the reference list against `documents_db`, keeping
(in order) only references that resolve, each rendered as id / content /
metadata.  Purely a read: the state is returned unchanged. -/
def get_context_content (s : ServerState) (context_id : String) :
    Except Unit ContextContent × ServerState :=
  match lookupD s.contexts_db context_id with
  | none => (Except.error (), s)
  | some ctx =>
    (Except.ok
      { context_id := context_id, name := ctx.name,
        documents := ctx.documents.filterMap (fun d =>
          (lookupD s.documents_db d).map (fun doc =>
            { id := d, content := doc.content, metadata := doc.metadata })) },
     s)

/-- `POST /tasks/retry` (app.py lines 205-214): when the failed list is
empty report so and change nothing; otherwise extend `tasks` with
`failed_tasks` (order preserved, error fields untouched) and clear the
failed list.  The reported count is taken after the extend, as in the
source. -/
def retry_failed_tasks (s : ServerState) : String × ServerState :=
  if s.failed_tasks.isEmpty then ("No failed tasks to retry", s)
  else
    ("Moved " ++ toString (s.tasks ++ s.failed_tasks).length ++
       " tasks back to the queue",
     { s with tasks := s.tasks ++ s.failed_tasks, failed_tasks := [] })

/-- A small concrete store used by witnesses: document "d", context "c"
referencing it, a bystander context "o", and one pending and one failed
task. -/
def cWitState : ServerState :=
  { documents_db := [("d", { id := "d", content := "body", metadata := [],
                             created_at := "T0" })],
    contexts_db :=
      [("c", { id := "c", name := "n", documents := ["d"], description := none,
               created_at := "T0", updated_at := "T0" }),
       ("o", { id := "o", name := "m", documents := ["d"], description := none,
               created_at := "T0", updated_at := "T0" })],
    tasks := [{ type := some "create_document", context_id := none,
                data := none, error := none }],
    failed_tasks := [{ type := some "create_context", context_id := none,
                       data := none, error := some "boom" }] }

/-- A concrete update payload whose id "other" differs from the path key. -/
def cWitPayload : Context :=
  { id := "other", name := "n2", documents := ["d"], description := none,
    created_at := "T0", updated_at := "T0" }

/- Helper lemmas about the dict model. -/

theorem lookupD_nil {α : Type} (k : String) : lookupD ([] : List (String × α)) k = none := rfl

theorem lookupD_dictInsert_self {α : Type} (db : List (String × α)) (k : String) (v : α) :
    lookupD (dictInsert db k v) k = some v := by
  induction db with
  | nil => simp [dictInsert, lookupD, List.find?]
  | cons p rest ih =>
    by_cases hk : p.1 = k
    · simp [dictInsert, hk, lookupD, List.find?]
    · have hbeq : (p.1 == k) = false := beq_eq_false_iff_ne.mpr hk
      simpa [dictInsert, hbeq, lookupD, List.find?] using ih

theorem lookupD_dictInsert_ne {α : Type} (db : List (String × α)) (k k' : String)
    (v : α) (h : k' ≠ k) : lookupD (dictInsert db k v) k' = lookupD db k' := by
  have hkk : (k == k') = false := beq_eq_false_iff_ne.mpr (fun e => h e.symm)
  induction db with
  | nil => simp [dictInsert, lookupD, List.find?, hkk]
  | cons p rest ih =>
    by_cases hk : p.1 = k
    · have hbeq : (p.1 == k) = true := beq_iff_eq.mpr hk
      have h2 : (p.1 == k') = false := beq_eq_false_iff_ne.mpr (by
        intro e; exact h (by rw [← e, hk]))
      simp [dictInsert, hbeq, lookupD, List.find?, hkk, h2]
    · have hbeq : (p.1 == k) = false := beq_eq_false_iff_ne.mpr hk
      by_cases hk' : p.1 = k'
      · have hb' : (p.1 == k') = true := beq_iff_eq.mpr hk'
        simp [dictInsert, hbeq, lookupD, List.find?, hb']
      · have hbeq' : (p.1 == k') = false := beq_eq_false_iff_ne.mpr hk'
        simpa [dictInsert, hbeq, lookupD, List.find?, hbeq'] using ih

theorem lookupD_dictDelete_self {α : Type} (db : List (String × α)) (k : String) :
    lookupD (dictDelete db k) k = none := by
  induction db with
  | nil => rfl
  | cons p rest ih =>
    by_cases hk : p.1 = k
    · have hbeq : (p.1 == k) = true := beq_iff_eq.mpr hk
      simp only [dictDelete, List.filter, hbeq] at ih ⊢
      exact ih
    · have hbeq : (p.1 == k) = false := beq_eq_false_iff_ne.mpr hk
      simp only [dictDelete, List.filter, hbeq, Bool.not_false, lookupD, List.find?] at ih ⊢
      exact ih

theorem lookupD_dictDelete_ne {α : Type} (db : List (String × α)) (k k' : String)
    (h : k' ≠ k) : lookupD (dictDelete db k) k' = lookupD db k' := by
  induction db with
  | nil => rfl
  | cons p rest ih =>
    by_cases hk : p.1 = k
    · have hbeq : (p.1 == k) = true := beq_iff_eq.mpr hk
      have h2 : (p.1 == k') = false := beq_eq_false_iff_ne.mpr (by
        intro e; exact h (by rw [← e, hk]))
      simpa [dictDelete, lookupD, List.filter, hbeq, List.find?, h2] using ih
    · have hbeq : (p.1 == k) = false := beq_eq_false_iff_ne.mpr hk
      by_cases hk' : p.1 = k'
      · have hb' : (p.1 == k') = true := beq_iff_eq.mpr hk'
        simp [dictDelete, lookupD, List.filter, List.find?, hbeq, hb']
      · have hbeq' : (p.1 == k') = false := beq_eq_false_iff_ne.mpr hk'
        simpa [dictDelete, lookupD, List.filter, List.find?, hbeq, hbeq'] using ih

/- RateLimiter lemmas. -/

theorem is_rate_limited_admit (cap : Nat) (w : List Int) (now : Int)
    (hkeep : ∀ b ∈ w, now - b < 60) (hlt : w.length < cap) :
    is_rate_limited ⟨cap, w⟩ now = (false, ⟨cap, w ++ [now]⟩) := by
  have hfilter : w.filter (fun t => decide (now - t < 60)) = w :=
    List.filter_eq_self.mpr (fun b hb => decide_eq_true (hkeep b hb))
  simp [is_rate_limited, hfilter, Nat.not_le.mpr hlt]

theorem run_admit_all (cap : Nat) (ts : List Int) : ∀ (ws : List Int),
    ws.length + ts.length ≤ cap →
    (∀ a ∈ ws ++ ts, ∀ b ∈ ws ++ ts, a - b < 60) →
    (∀ b ∈ run_results ⟨cap, ws⟩ ts, b = false) ∧
    (run_state ⟨cap, ws⟩ ts).request_times = ws ++ ts := by
  induction ts with
  | nil => intro ws _ _; simp [run_results, run_state]
  | cons t rest ih =>
    intro ws hlen hspan
    have ht : t ∈ ws ++ t :: rest := by simp
    have hstep : is_rate_limited ⟨cap, ws⟩ t = (false, ⟨cap, ws ++ [t]⟩) := by
      apply is_rate_limited_admit
      · intro b hb; exact hspan t ht b (by simp [hb])
      · simp only [List.length_cons] at hlen; omega
    have hspan' : ∀ a ∈ (ws ++ [t]) ++ rest, ∀ b ∈ (ws ++ [t]) ++ rest, a - b < 60 := by
      intro a ha b hb
      refine hspan a ?_ b ?_ <;> simp only [List.append_assoc, List.singleton_append] at * <;>
        assumption
    have hlen' : (ws ++ [t]).length + rest.length ≤ cap := by
      have h1 : (ws ++ [t]).length = ws.length + 1 := by simp
      have h2 : (t :: rest).length = rest.length + 1 := by simp
      rw [h1]
      rw [h2] at hlen
      omega
    obtain ⟨hres, hst⟩ := ih (ws ++ [t]) hlen' hspan'
    constructor
    · intro b hb
      simp only [run_results, hstep] at hb
      rcases List.mem_cons.mp hb with h1 | h1
      · exact h1
      · exact hres b h1
    · simp only [run_state, List.foldl_cons, hstep]
      simpa [List.append_assoc] using hst

theorem is_rate_limited_cap (rl : RateLimiter) (now : Int) :
    ((is_rate_limited rl now).2).requests_per_minute = rl.requests_per_minute := by
  simp only [is_rate_limited]
  split <;> rfl

theorem run_state_cap (rl : RateLimiter) (ts : List Int) :
    (run_state rl ts).requests_per_minute = rl.requests_per_minute := by
  induction ts generalizing rl with
  | nil => rfl
  | cons t rest ih =>
    simp only [run_state, List.foldl_cons] at *
    rw [ih, is_rate_limited_cap]

/-- Claim C5: starting from a fresh limiter with capacity `cap > 0`, a
sequence of at most `cap` admission checks whose instants all lie within one
60-second span is entirely admitted and every instant recorded; when exactly
`cap` calls were made, a further call `u` still inside the window is rejected
without recording an instant; and a call `v` made after the whole window has
elapsed (60s or more past every recorded instant) is admitted again, the
purge leaving only `v` recorded. -/
theorem rateLimiter_sliding_window (cap : Nat) (ts : List Int) (u v : Int)
    (hcap : 0 < cap) (hlen : ts.length ≤ cap)
    (hspan : ∀ a ∈ ts, ∀ b ∈ ts, a - b < 60)
    (hu : ∀ t ∈ ts, u - t < 60) (hv : ∀ t ∈ ts, 60 ≤ v - t) :
    (∀ b ∈ run_results ⟨cap, []⟩ ts, b = false) ∧
    (run_state ⟨cap, []⟩ ts).request_times = ts ∧
    (ts.length = cap →
      (is_rate_limited (run_state ⟨cap, []⟩ ts) u).1 = true ∧
      (is_rate_limited (run_state ⟨cap, []⟩ ts) u).2.request_times = ts) ∧
    (is_rate_limited (run_state ⟨cap, []⟩ ts) v).1 = false ∧
    (is_rate_limited (run_state ⟨cap, []⟩ ts) v).2.request_times = [v] := by
  obtain ⟨hres, hst⟩ := run_admit_all cap ts [] (by simpa using hlen)
    (by simpa using hspan)
  have hcapeq : (run_state ⟨cap, []⟩ ts).requests_per_minute = cap :=
    run_state_cap ⟨cap, []⟩ ts
  refine ⟨hres, by simpa using hst, ?_, ?_, ?_⟩
  · intro hfull
    have hfilter : (run_state ⟨cap, []⟩ ts).request_times.filter
        (fun t => decide (u - t < 60)) = ts := by
      rw [hst]
      simp only [List.nil_append]
      exact List.filter_eq_self.mpr (fun b hb => decide_eq_true (hu b hb))
    constructor <;>
      simp [is_rate_limited, hfilter, hcapeq, hfull, Nat.le_refl]
  · have hfilter : (run_state ⟨cap, []⟩ ts).request_times.filter
        (fun t => decide (v - t < 60)) = [] := by
      rw [hst]
      simp only [List.nil_append]
      refine List.filter_eq_nil_iff.mpr (fun b hb => ?_)
      simp only [decide_eq_true_eq]
      exact fun hlt => absurd (hv b hb) (by omega)
    simp [is_rate_limited, hfilter, hcapeq, Nat.pos_iff_ne_zero.mp hcap]
  · have hfilter : (run_state ⟨cap, []⟩ ts).request_times.filter
        (fun t => decide (v - t < 60)) = [] := by
      rw [hst]
      simp only [List.nil_append]
      refine List.filter_eq_nil_iff.mpr (fun b hb => ?_)
      simp only [decide_eq_true_eq]
      exact fun hlt => absurd (hv b hb) (by omega)
    simp [is_rate_limited, hfilter, hcapeq, Nat.pos_iff_ne_zero.mp hcap]

/-- Witness for claim C5: capacity 2, admitted calls at instants 0 and 10, a
rejected third call at 20, renewed admission at 100. -/
theorem rateLimiter_sliding_window_witness :
    (∀ b ∈ run_results ⟨2, []⟩ [0, 10], b = false) ∧
    (run_state ⟨2, []⟩ [0, 10]).request_times = [0, 10] ∧
    (([0, 10] : List Int).length = 2 →
      (is_rate_limited (run_state ⟨2, []⟩ [0, 10]) 20).1 = true ∧
      (is_rate_limited (run_state ⟨2, []⟩ [0, 10]) 20).2.request_times = [0, 10]) ∧
    (is_rate_limited (run_state ⟨2, []⟩ [0, 10]) 100).1 = false ∧
    (is_rate_limited (run_state ⟨2, []⟩ [0, 10]) 100).2.request_times = [100] :=
  rateLimiter_sliding_window 2 [0, 10] 20 100 (by decide) (by decide)
    (by decide) (by decide) (by decide)

/-- Claim C8: one admission check at time `now`, from any window holding at
most `cap` instants, non-decreasing and none in the future, yields a window
that again holds at most `cap` instants, is non-decreasing, and whose every
instant lies within the trailing 60 seconds of `now` — whatever the call's
outcome. -/
theorem rateLimiter_window_invariant (cap : Nat) (w : List Int) (now : Int)
    (hlen : w.length ≤ cap) (hsort : List.Pairwise (· ≤ ·) w)
    (hpast : ∀ t ∈ w, t ≤ now) :
    ((is_rate_limited ⟨cap, w⟩ now).2.request_times.length ≤ cap) ∧
    List.Pairwise (· ≤ ·) ((is_rate_limited ⟨cap, w⟩ now).2.request_times) ∧
    (∀ t ∈ (is_rate_limited ⟨cap, w⟩ now).2.request_times,
       now - t < 60 ∧ t ≤ now) := by
  have hsub : (w.filter (fun t => decide (now - t < 60))).length ≤ w.length :=
    List.length_filter_le _ _
  have hpw : List.Pairwise (· ≤ ·) (w.filter (fun t => decide (now - t < 60))) :=
    hsort.filter _
  have hmem : ∀ t ∈ w.filter (fun t => decide (now - t < 60)),
      now - t < 60 ∧ t ≤ now := by
    intro t ht
    obtain ⟨h1, h2⟩ := List.mem_filter.mp ht
    exact ⟨by simpa using h2, hpast t h1⟩
  simp only [is_rate_limited]
  split
  · exact ⟨le_trans hsub hlen, hpw, hmem⟩
  · rename_i h
    refine ⟨?_, ?_, ?_⟩
    · simp only [List.length_append, List.length_singleton]
      omega
    · refine List.pairwise_append.mpr ⟨hpw, by simp, ?_⟩
      intro a ha b hb
      simp only [List.mem_singleton] at hb
      subst hb
      exact (hmem a ha).2
    · intro t ht
      rcases List.mem_append.mp ht with h1 | h1
      · exact hmem t h1
      · simp only [List.mem_singleton] at h1
        subst h1
        exact ⟨by omega, le_refl _⟩

/-- Witness for claim C8: capacity 1, window [5], call at time 10. -/
theorem rateLimiter_window_invariant_witness :
    ((is_rate_limited ⟨1, [5]⟩ 10).2.request_times.length ≤ 1) ∧
    List.Pairwise (· ≤ ·) ((is_rate_limited ⟨1, [5]⟩ 10).2.request_times) ∧
    (∀ t ∈ (is_rate_limited ⟨1, [5]⟩ 10).2.request_times,
       (10 : Int) - t < 60 ∧ t ≤ 10) :=
  rateLimiter_window_invariant 1 [5] 10 (by decide) (by decide) (by decide)

/- Processor lemmas. -/

theorem applyIntent_fails (f g : String) (t : Task) (s : ServerState)
    (h : taskFails t = true) :
    ∃ msg : String, msg ≠ "" ∧
      applyIntent f g t s =
        { s with failed_tasks := s.failed_tasks ++ [{ t with error := some msg }] } := by
  unfold taskFails at h
  by_cases hd : (t.type == some "create_document") = true
  · rw [if_pos hd] at h
    match hdata : t.data with
    | none =>
      exact ⟨"argument after ** must be a mapping", by decide,
        by simp [applyIntent, hd, hdata]⟩
    | some p =>
      have hc : p.content = none := by
        rw [hdata] at h
        simpa [Option.isNone_iff_eq_none] using h
      refine ⟨"validation error for Document: content field required", by decide, ?_⟩
      simp [applyIntent, hd, hdata, mkDocument, hc]
  · rw [if_neg hd] at h
    by_cases hx : (t.type == some "create_context") = true
    · rw [if_pos hx] at h
      match hdata : t.data with
      | none =>
        exact ⟨"argument after ** must be a mapping", by decide,
          by simp [applyIntent, hd, hx, hdata]⟩
      | some p =>
        have hn : p.name = none := by
          rw [hdata] at h
          simpa [Option.isNone_iff_eq_none] using h
        refine ⟨"validation error for Context: name field required", by decide, ?_⟩
        simp [applyIntent, hd, hx, hdata, mkContext, hn]
    · rw [if_neg hx] at h
      exact absurd h (by simp)

theorem applyIntent_create_document (f g : String) (t : Task) (s : ServerState)
    (p : TaskPayload) (c : String)
    (h3 : t.type = some "create_document") (h4 : t.data = some p)
    (h5 : p.content = some c) :
    applyIntent f g t s =
      { s with
          documents_db :=
            dictInsert s.documents_db (p.id.getD f)
              { id := p.id.getD f, content := c, metadata := p.metadata.getD [],
                created_at := p.created_at.getD g } } := by
  have hb : (t.type == some "create_document") = true := by simp [h3]
  simp [applyIntent, hb, h4, mkDocument, h5]

/-- Claim C3 (amended): one apply step on a queue whose head intent has an
unrecognized type pops the intent and silently discards it — nothing is
appended to the failed list, no error is attached, and neither documents nor
contexts change. -/
theorem processStep_unrecognized_discards (f g : String) (s : ServerState)
    (task : Task) (rest : List Task)
    (h1 : s.tasks = task :: rest)
    (h2 : task.type ≠ some "create_document")
    (h3 : task.type ≠ some "create_context") :
    processStep f g s = { s with tasks := rest } := by
  have hb2 : (task.type == some "create_document") = false := beq_eq_false_iff_ne.mpr h2
  have hb3 : (task.type == some "create_context") = false := beq_eq_false_iff_ne.mpr h3
  simp [processStep, h1, applyIntent, hb2, hb3]

/-- Witness for the amended claim C3: an intent with type "bogus" is popped
and dropped. -/
theorem processStep_unrecognized_discards_witness :
    processStep "f" "T"
      { documents_db := [], contexts_db := [],
        tasks := [{ type := some "bogus", context_id := none, data := none,
                    error := none }],
        failed_tasks := [] } =
      { documents_db := [], contexts_db := [], tasks := [], failed_tasks := [] } :=
  processStep_unrecognized_discards "f" "T" _
    { type := some "bogus", context_id := none, data := none, error := none }
    [] rfl (by decide) (by decide)

/-- Counterexample to claim C3 as stated: after one apply step on a queue
holding a single intent of unrecognized type "bogus", the failed list is
still empty — the intent was silently discarded, not moved to the failed
list with an error. -/
theorem processStep_unrecognized_counterexample :
    (processStep "f" "T"
      { documents_db := [], contexts_db := [],
        tasks := [{ type := some "bogus", context_id := none, data := none,
                    error := none }],
        failed_tasks := [] }).failed_tasks = [] ∧
    (processStep "f" "T"
      { documents_db := [], contexts_db := [],
        tasks := [{ type := some "bogus", context_id := none, data := none,
                    error := none }],
        failed_tasks := [] }).tasks = [] := by
  constructor <;> rfl

/-- Claim C6: when the head intent's dispatch raises (absent or malformed
payload, e.g. a create_document payload missing the required content field),
the apply step catches the exception, annotates the intent with a non-empty
error, appends it to the failed list, and leaves documents and contexts
untouched; the next apply step still applies a subsequent valid
create_document intent, whose document then resolves in the store. -/
theorem processor_failure_isolation (f1 g1 f2 g2 : String) (s : ServerState)
    (t1 t2 : Task) (rest : List Task) (p : TaskPayload) (c : String)
    (h1 : s.tasks = t1 :: t2 :: rest)
    (h2 : taskFails t1 = true)
    (h3 : t2.type = some "create_document")
    (h4 : t2.data = some p)
    (h5 : p.content = some c) :
    ∃ msg : String, msg ≠ "" ∧
      processStep f1 g1 s =
        { s with tasks := t2 :: rest,
                 failed_tasks := s.failed_tasks ++ [{ t1 with error := some msg }] } ∧
      (processStep f2 g2 (processStep f1 g1 s)).tasks = rest ∧
      lookupD (processStep f2 g2 (processStep f1 g1 s)).documents_db
          (p.id.getD f2) =
        some { id := p.id.getD f2, content := c, metadata := p.metadata.getD [],
               created_at := p.created_at.getD g2 } := by
  obtain ⟨msg, hmsg, happ⟩ :=
    applyIntent_fails f1 g1 t1 { s with tasks := t2 :: rest } h2
  have hstep1 : processStep f1 g1 s =
      { s with tasks := t2 :: rest,
               failed_tasks := s.failed_tasks ++ [{ t1 with error := some msg }] } := by
    simp [processStep, h1, happ]
  have hstep2 := applyIntent_create_document f2 g2 t2
    { s with tasks := rest,
             failed_tasks := s.failed_tasks ++ [{ t1 with error := some msg }] }
    p c h3 h4 h5
  refine ⟨msg, hmsg, hstep1, ?_, ?_⟩
  · rw [hstep1]
    simp [processStep, hstep2]
  · rw [hstep1]
    simp only [processStep, hstep2]
    exact lookupD_dictInsert_self _ _ _

/-- Witness for claim C6: the head create_document intent lacks content and
fails; the next create_document intent (content "hello", id "d1") is still
applied and its document resolves. -/
theorem processor_failure_isolation_witness :
    ∃ msg : String, msg ≠ "" ∧
      processStep "a" "T1"
        { documents_db := [], contexts_db := [],
          tasks :=
            [{ type := some "create_document", context_id := none,
               data := some { id := none, content := none, name := none,
                              documents := none, description := none,
                              metadata := none, created_at := none,
                              updated_at := none },
               error := none },
             { type := some "create_document", context_id := none,
               data := some { id := some "d1", content := some "hello",
                              name := none, documents := none,
                              description := none, metadata := none,
                              created_at := none, updated_at := none },
               error := none }],
          failed_tasks := [] } =
        { documents_db := [], contexts_db := [],
          tasks :=
            [{ type := some "create_document", context_id := none,
               data := some { id := some "d1", content := some "hello",
                              name := none, documents := none,
                              description := none, metadata := none,
                              created_at := none, updated_at := none },
               error := none }],
          failed_tasks :=
            [{ type := some "create_document", context_id := none,
               data := some { id := none, content := none, name := none,
                              documents := none, description := none,
                              metadata := none, created_at := none,
                              updated_at := none },
               error := some msg }] } ∧
      (processStep "b" "T2" (processStep "a" "T1"
        { documents_db := [], contexts_db := [],
          tasks :=
            [{ type := some "create_document", context_id := none,
               data := some { id := none, content := none, name := none,
                              documents := none, description := none,
                              metadata := none, created_at := none,
                              updated_at := none },
               error := none },
             { type := some "create_document", context_id := none,
               data := some { id := some "d1", content := some "hello",
                              name := none, documents := none,
                              description := none, metadata := none,
                              created_at := none, updated_at := none },
               error := none }],
          failed_tasks := [] })).tasks = [] ∧
      lookupD (processStep "b" "T2" (processStep "a" "T1"
        { documents_db := [], contexts_db := [],
          tasks :=
            [{ type := some "create_document", context_id := none,
               data := some { id := none, content := none, name := none,
                              documents := none, description := none,
                              metadata := none, created_at := none,
                              updated_at := none },
               error := none },
             { type := some "create_document", context_id := none,
               data := some { id := some "d1", content := some "hello",
                              name := none, documents := none,
                              description := none, metadata := none,
                              created_at := none, updated_at := none },
               error := none }],
          failed_tasks := [] })).documents_db "d1" =
        some { id := "d1", content := "hello", metadata := [],
               created_at := "T2" } :=
  processor_failure_isolation "a" "T1" "b" "T2"
    { documents_db := [], contexts_db := [],
      tasks :=
        [{ type := some "create_document", context_id := none,
           data := some { id := none, content := none, name := none,
                          documents := none, description := none,
                          metadata := none, created_at := none,
                          updated_at := none },
           error := none },
         { type := some "create_document", context_id := none,
           data := some { id := some "d1", content := some "hello",
                          name := none, documents := none,
                          description := none, metadata := none,
                          created_at := none, updated_at := none },
           error := none }],
      failed_tasks := [] }
    { type := some "create_document", context_id := none,
      data := some { id := none, content := none, name := none,
                     documents := none, description := none,
                     metadata := none, created_at := none,
                     updated_at := none },
      error := none }
    { type := some "create_document", context_id := none,
      data := some { id := some "d1", content := some "hello",
                     name := none, documents := none,
                     description := none, metadata := none,
                     created_at := none, updated_at := none },
      error := none }
    []
    { id := some "d1", content := some "hello", name := none,
      documents := none, description := none, metadata := none,
      created_at := none, updated_at := none }
    "hello" rfl rfl rfl rfl rfl

/-- Claim C4: retry appends the failed intents, in their failed order and
with their error fields untouched, after the already-pending intents, and
empties the failed list; with no failed intents the whole state is left
unchanged.  The store maps are never touched. -/
theorem retry_all_spec (s : ServerState) :
    (retry_failed_tasks s).2.tasks = s.tasks ++ s.failed_tasks ∧
    (retry_failed_tasks s).2.failed_tasks = [] ∧
    (retry_failed_tasks s).2.documents_db = s.documents_db ∧
    (retry_failed_tasks s).2.contexts_db = s.contexts_db ∧
    (s.failed_tasks = [] → (retry_failed_tasks s).2 = s) := by
  by_cases h : s.failed_tasks.isEmpty
  · have he : s.failed_tasks = [] := by simpa [List.isEmpty_iff] using h
    simp [retry_failed_tasks, h, he]
  · have he : s.failed_tasks ≠ [] := by simpa [List.isEmpty_iff] using h
    refine ⟨?_, ?_, ?_, ?_, fun hh => absurd hh he⟩ <;> simp [retry_failed_tasks, h]

/-- Witness for claim C4 in the empty-failed-list case: retry is a no-op. -/
theorem retry_all_spec_witness :
    (retry_failed_tasks
      { documents_db := [], contexts_db := [], tasks := [], failed_tasks := [] }).2 =
      { documents_db := [], contexts_db := [], tasks := [], failed_tasks := [] } :=
  (retry_all_spec
      { documents_db := [], contexts_db := [], tasks := [], failed_tasks := [] }).2.2.2.2 rfl

/-- Claim C9: delete_context removes exactly the targeted context — the
documents map, every other context's entry, and both task lists are
unchanged; no cascade of any kind happens. -/
theorem delete_context_frame (s : ServerState) (cid : String) (ctx : Context)
    (h : lookupD s.contexts_db cid = some ctx) :
    (delete_context s cid).1 = Except.ok () ∧
    (delete_context s cid).2.documents_db = s.documents_db ∧
    (delete_context s cid).2.tasks = s.tasks ∧
    (delete_context s cid).2.failed_tasks = s.failed_tasks ∧
    lookupD (delete_context s cid).2.contexts_db cid = none ∧
    (∀ k, k ≠ cid →
      lookupD (delete_context s cid).2.contexts_db k = lookupD s.contexts_db k) := by
  have hs : (lookupD s.contexts_db cid).isSome = true := by rw [h]; rfl
  have hred : delete_context s cid =
      (Except.ok (), { s with contexts_db := dictDelete s.contexts_db cid }) := by
    simp [delete_context, hs]
  rw [hred]
  exact ⟨rfl, rfl, rfl, rfl, lookupD_dictDelete_self _ _,
    fun k hk => lookupD_dictDelete_ne _ _ _ hk⟩

/-- Witness for claim C9: deleting context "c" from a store that also holds
context "o" and document "d" leaves "o", "d" and the queues in place. -/
theorem delete_context_frame_witness :
    (delete_context cWitState "c").1 = Except.ok () ∧
    (delete_context cWitState "c").2.documents_db = cWitState.documents_db ∧
    (delete_context cWitState "c").2.tasks = cWitState.tasks ∧
    (delete_context cWitState "c").2.failed_tasks = cWitState.failed_tasks ∧
    lookupD (delete_context cWitState "c").2.contexts_db "c" = none ∧
    (∀ k, k ≠ "c" →
      lookupD (delete_context cWitState "c").2.contexts_db k =
        lookupD cWitState.contexts_db k) :=
  delete_context_frame cWitState "c"
    { id := "c", name := "n", documents := ["d"], description := none,
      created_at := "T0", updated_at := "T0" } (by decide)

/-- Claim C10: update_context commits under the path key `context_id`; the
committed record's `id` field is the payload's `id`, which may differ from
the key; every other key's presence is untouched, so no record appears under
the payload's id when none was there before. -/
theorem update_context_commits_under_path_key (s : ServerState) (cid : String)
    (payload : Context) (now : String) (ctx0 : Context)
    (h : lookupD s.contexts_db cid = some ctx0) :
    (∃ c : Context, (update_context s cid payload now).1 = Except.ok c ∧
       lookupD (update_context s cid payload now).2.contexts_db cid = some c ∧
       c.id = payload.id ∧ c.updated_at = now) ∧
    (∀ k, k ≠ cid →
       lookupD (update_context s cid payload now).2.contexts_db k =
         lookupD s.contexts_db k) ∧
    (payload.id ≠ cid → lookupD s.contexts_db payload.id = none →
       lookupD (update_context s cid payload now).2.contexts_db payload.id = none) := by
  have hs : (lookupD s.contexts_db cid).isSome = true := by rw [h]; rfl
  have hred : update_context s cid payload now =
      (Except.ok { payload with
          documents := (validateDocs (s.documents_db.map (fun p => p.1)) cid
            payload.documents).1,
          updated_at := now },
       { s with
          contexts_db := dictInsert s.contexts_db cid
            { payload with
                documents := (validateDocs (s.documents_db.map (fun p => p.1)) cid
                  payload.documents).1,
                updated_at := now },
          failed_tasks := s.failed_tasks ++
            (validateDocs (s.documents_db.map (fun p => p.1)) cid
              payload.documents).2 }) := by
    simp [update_context, hs]
  rw [hred]
  refine ⟨⟨_, rfl, lookupD_dictInsert_self _ _ _, rfl, rfl⟩,
    fun k hk => lookupD_dictInsert_ne _ _ _ _ hk,
    fun h1 h2 => ?_⟩
  rw [lookupD_dictInsert_ne _ _ _ _ h1]
  exact h2

/-- Witness for claim C10: updating key "c" with a payload whose id is
"other" commits the record under "c" with id field "other", and creates
nothing under key "other". -/
theorem update_context_commits_witness :
    (∃ c : Context, (update_context cWitState "c" cWitPayload "T1").1 = Except.ok c ∧
       lookupD (update_context cWitState "c" cWitPayload "T1").2.contexts_db "c" =
         some c ∧
       c.id = cWitPayload.id ∧ c.updated_at = "T1") ∧
    (∀ k, k ≠ "c" →
       lookupD (update_context cWitState "c" cWitPayload "T1").2.contexts_db k =
         lookupD cWitState.contexts_db k) ∧
    (cWitPayload.id ≠ "c" → lookupD cWitState.contexts_db cWitPayload.id = none →
       lookupD (update_context cWitState "c" cWitPayload "T1").2.contexts_db
         cWitPayload.id = none) :=
  update_context_commits_under_path_key cWitState "c" cWitPayload "T1"
    { id := "c", name := "n", documents := ["d"], description := none,
      created_at := "T0", updated_at := "T0" } (by decide)

/-- Claim C2 evaluated at its failing input (code_bug): context "c" exists,
the store holds no documents, and the submitted documents list is
["x", "y"] — two adjacent unresolvable ids.  Removing "x" from the list being
iterated shifts "y" under the running index, so "y" is never checked: the
committed sequence is ["y"] (an unresolvable id survives) and only one
validation failure is recorded, where the claim demands an empty committed
sequence and two failures. -/
theorem update_context_adjacent_invalid_eval :
    update_context
      { documents_db := [],
        contexts_db := [("c", { id := "c", name := "n", documents := [],
                                description := none, created_at := "T0",
                                updated_at := "T0" })],
        tasks := [], failed_tasks := [] }
      "c"
      { id := "c", name := "n", documents := ["x", "y"], description := none,
        created_at := "T0", updated_at := "T0" }
      "T1" =
    (Except.ok { id := "c", name := "n", documents := ["y"], description := none,
                 created_at := "T0", updated_at := "T1" },
     { documents_db := [],
       contexts_db := [("c", { id := "c", name := "n", documents := ["y"],
                               description := none, created_at := "T0",
                               updated_at := "T1" })],
       tasks := [],
       failed_tasks := [{ type := some "update_context", context_id := some "c",
                          data := none,
                          error := some "Document x does not exist" }] }) := by
  rfl


theorem cascadeFix_spec (did now : String) (p : String × Context) :
    (cascadeFix did now p).1 = p.1 ∧
    (did ∉ p.2.documents → cascadeFix did now p = p) ∧
    (did ∈ p.2.documents →
      (cascadeFix did now p).2.documents.count did = p.2.documents.count did - 1 ∧
      (∀ x, x ≠ did →
        (cascadeFix did now p).2.documents.count x = p.2.documents.count x) ∧
      (cascadeFix did now p).2.updated_at = now ∧
      (cascadeFix did now p).2.id = p.2.id ∧
      (cascadeFix did now p).2.name = p.2.name ∧
      (cascadeFix did now p).2.description = p.2.description ∧
      (cascadeFix did now p).2.created_at = p.2.created_at) := by
  by_cases hmem : did ∈ p.2.documents
  · have hfix : cascadeFix did now p =
        (p.1, { p.2 with documents := p.2.documents.erase did, updated_at := now }) := by
      simp [cascadeFix, hmem]
    rw [hfix]
    refine ⟨rfl, fun hn => absurd hmem hn, fun _ => ?_⟩
    exact ⟨List.count_erase_self did p.2.documents,
           fun x hx => List.count_erase_of_ne hx p.2.documents,
           rfl, rfl, rfl, rfl, rfl⟩
  · have hfix : cascadeFix did now p = p := by
      simp [cascadeFix, hmem]
    rw [hfix]
    exact ⟨rfl, fun _ => rfl, fun hm => absurd hm hmem⟩

/-- Claim C1 (amended): deleting a present document removes it from the
store, leaves other documents and both task lists unchanged, and fixes up
each context pointwise: a context not referencing the id is untouched; a
context referencing it loses exactly ONE occurrence (the first — a context
listing the id several times keeps the rest), has `updated_at` refreshed,
and keeps all its other fields. -/
theorem delete_document_cascade (s : ServerState) (did now : String)
    (doc : Document) (h : lookupD s.documents_db did = some doc) :
    (delete_document s did now).1 = Except.ok () ∧
    lookupD (delete_document s did now).2.documents_db did = none ∧
    (∀ k, k ≠ did →
      lookupD (delete_document s did now).2.documents_db k =
        lookupD s.documents_db k) ∧
    (delete_document s did now).2.tasks = s.tasks ∧
    (delete_document s did now).2.failed_tasks = s.failed_tasks ∧
    List.Forall₂ (fun (old new : String × Context) =>
        new.1 = old.1 ∧
        (did ∉ old.2.documents → new = old) ∧
        (did ∈ old.2.documents →
          new.2.documents.count did = old.2.documents.count did - 1 ∧
          (∀ x, x ≠ did → new.2.documents.count x = old.2.documents.count x) ∧
          new.2.updated_at = now ∧
          new.2.id = old.2.id ∧
          new.2.name = old.2.name ∧
          new.2.description = old.2.description ∧
          new.2.created_at = old.2.created_at))
      s.contexts_db (delete_document s did now).2.contexts_db := by
  have hs : (lookupD s.documents_db did).isSome = true := by rw [h]; rfl
  have hred : delete_document s did now =
      (Except.ok (),
       { s with contexts_db := s.contexts_db.map (cascadeFix did now),
                documents_db := dictDelete s.documents_db did }) := by
    simp [delete_document, hs]
  rw [hred]
  refine ⟨rfl, lookupD_dictDelete_self _ _,
    fun k hk => lookupD_dictDelete_ne _ _ _ hk, rfl, rfl, ?_⟩
  rw [List.forall₂_map_right_iff, List.forall₂_same]
  intro p _
  exact cascadeFix_spec did now p

/-- Witness for the amended claim C1 at the concrete store `cWitState`. -/
theorem delete_document_cascade_witness :
    (delete_document cWitState "d" "T1").1 = Except.ok () ∧
    lookupD (delete_document cWitState "d" "T1").2.documents_db "d" = none :=
  ⟨(delete_document_cascade cWitState "d" "T1"
      { id := "d", content := "body", metadata := [], created_at := "T0" }
      (by decide)).1,
   (delete_document_cascade cWitState "d" "T1"
      { id := "d", content := "body", metadata := [], created_at := "T0" }
      (by decide)).2.1⟩

/-- Counterexample to claim C1 as stated: context "c" references document
"d" twice; after `delete_document "d"` the context still contains one
occurrence of "d" — `list.remove` removed only the first occurrence, not all
of them. -/
theorem delete_document_duplicate_counterexample :
    (delete_document
      { documents_db := [("d", { id := "d", content := "body", metadata := [],
                                 created_at := "T0" })],
        contexts_db := [("c", { id := "c", name := "n", documents := ["d", "d"],
                                description := none, created_at := "T0",
                                updated_at := "T0" })],
        tasks := [], failed_tasks := [] }
      "d" "T1").2.contexts_db =
      [("c", { id := "c", name := "n", documents := ["d"], description := none,
               created_at := "T0", updated_at := "T1" })] := by
  rfl

theorem renderJoin (db : List (String × Document)) (docs : List String) :
    docs.filterMap (fun d => (lookupD db d).map (fun doc =>
      ({ id := d, content := doc.content, metadata := doc.metadata } : ContentEntry))) =
    (docs.filter (fun d => (lookupD db d).isSome)).map (fun d =>
      { id := d, content := ((lookupD db d).map Document.content).getD "",
        metadata := ((lookupD db d).map Document.metadata).getD [] }) := by
  induction docs with
  | nil => rfl
  | cons d rest ih =>
    cases hd : lookupD db d with
    | none => simp [List.filterMap_cons, List.filter_cons, hd, ih]
    | some doc => simp [List.filterMap_cons, List.filter_cons, hd, ih]

/-- Claim C7: rendering context content is a pure read (the state is
unchanged); it is NotFound exactly when the context id is absent; and for a
present context it returns the queried id, the context's name, and exactly
the resolvable references of its documents sequence, in order, each rendered
as its id, content and metadata — unresolvable references are silently
skipped. -/
theorem get_context_content_spec (s : ServerState) (cid : String) :
    (get_context_content s cid).2 = s ∧
    (lookupD s.contexts_db cid = none →
      (get_context_content s cid).1 = Except.error ()) ∧
    (∀ ctx : Context, lookupD s.contexts_db cid = some ctx →
      (get_context_content s cid).1 = Except.ok
        { context_id := cid, name := ctx.name,
          documents :=
            (ctx.documents.filter (fun d => (lookupD s.documents_db d).isSome)).map
              (fun d =>
                { id := d,
                  content := ((lookupD s.documents_db d).map Document.content).getD "",
                  metadata :=
                    ((lookupD s.documents_db d).map Document.metadata).getD [] }) }) := by
  refine ⟨?_, ?_, ?_⟩
  · cases hd : lookupD s.contexts_db cid <;> simp [get_context_content, hd]
  · intro hd
    simp [get_context_content, hd]
  · intro ctx hd
    simp only [get_context_content, hd]
    rw [renderJoin]

/-- Witness for claim C7: rendering context "c" of `cWitState` returns its
single resolvable document fully rendered, and a dangling reference state is
exercised through the theorem's general form. -/
theorem get_context_content_spec_witness :
    (get_context_content cWitState "c").1 =
      Except.ok { context_id := "c", name := "n",
                  documents := [{ id := "d", content := "body", metadata := [] }] } :=
  (get_context_content_spec cWitState "c").2.2
    { id := "c", name := "n", documents := ["d"], description := none,
      created_at := "T0", updated_at := "T0" } (by decide)

end MCP
